import Mathlib

/-!
Verification of the perceptual-difference pipeline in `1850_pd.py`.

The script computes, for each pair of frames, a per-pixel perceptual
difference map between the feature embeddings of an input image and a
synthesized image.  The numeric core (lines 97-115 of the source) is
embedded here over exact rationals:

  * a feature map layer is a (channels, height, width) array of scalars
    (the batch dimension is always 1 and is dropped);
  * `F.interpolate(.., mode='bilinear', align_corners=False)` is embedded
    per output pixel by `bilinearAt`, following the half-pixel source-index
    convention of the PyTorch kernel (source index
    `scale * (dst + 0.5) - 0.5`, clamped below at 0, with the `+1`
    neighbour clamped to the last row/column);
  * the aggregation loop (lines 104-115) zips the two layer lists,
    and for each pair adds `l1_loss(reduction='sum') / num_channels`
    evaluated at the pixel; `zip` truncates to the shorter list exactly as
    Python's `zip` does.

`F.l1_loss` raises a shape error when its two arguments have different
channel counts; every theorem below therefore only evaluates the embedding
on inputs whose compared layers have equal channel counts, where the
embedding and the source agree.

The preprocessing pipeline (lines 34-40) and the output I/O skeleton
(lines 15-16 and 151) are embedded further down.
-/

namespace PD

/-- One feature map layer: `C` channels of an `H × W` spatial grid, scalar
values read through `data channel row column`.  This is the 4-D tensor of
the source with its batch dimension (always 1) dropped. -/
structure FeatureMap where
  C : ℕ
  H : ℕ
  W : ℕ
  data : ℕ → ℕ → ℕ → ℚ

instance : Inhabited FeatureMap := ⟨⟨0, 0, 0, fun _ _ _ => 0⟩⟩

/-- Linear interpolation `(1 - t) * a + t * b`, the elementary step of the
bilinear kernel. -/
def lerp (t a b : ℚ) : ℚ := (1 - t) * a + t * b

/-- Source coordinate of output index `i` when resampling a length
`inSize` axis to length `outSize` with `align_corners=False`:
`inSize/outSize * (i + 1/2) - 1/2`, clamped below at `0` as in the
PyTorch bilinear kernel. -/
def srcIndex (inSize outSize : ℕ) (i : ℕ) : ℚ :=
  max 0 ((inSize : ℚ) / (outSize : ℚ) * ((i : ℚ) + 1 / 2) - 1 / 2)

/-- Value of channel `c` of `fm` resampled to an `outH × outW` grid with
bilinear interpolation, `align_corners=False`, read at output pixel
`(h, w)`.  Embeds `F.interpolate(fm, size=(outH, outW), mode='bilinear',
align_corners=False)[0, c, h, w]`. -/
def bilinearAt (fm : FeatureMap) (outH outW : ℕ) (c h w : ℕ) : ℚ :=
  let sy := srcIndex fm.H outH h
  let sx := srcIndex fm.W outW w
  let y0 := (⌊sy⌋).toNat
  let x0 := (⌊sx⌋).toNat
  let y1 := min (y0 + 1) (fm.H - 1)
  let x1 := min (x0 + 1) (fm.W - 1)
  let ly := sy - (y0 : ℚ)
  let lx := sx - (x0 : ℚ)
  lerp ly (lerp lx (fm.data c y0 x0) (fm.data c y0 x1))
    (lerp lx (fm.data c y1 x0) (fm.data c y1 x1))

/-- Contribution of one zipped layer pair `p` to the accumulator at output
pixel `(h, w)`:
`F.l1_loss(resizedA[0, :, h, w], resizedB[0, :, h, w], reduction='sum')
 / num_elements`, where `num_elements = p.1.C` is the channel count of the
first (input) layer — source lines 109-113. -/
def layerTerm (outH outW h w : ℕ) (p : FeatureMap × FeatureMap) : ℚ :=
  (∑ c ∈ Finset.range p.1.C,
      |bilinearAt p.1 outH outW c h w - bilinearAt p.2 outH outW c h w|) /
    (p.1.C : ℚ)

/-- The 2-D perceptual difference map (`torch.zeros((height, width))`
filled by the loop); `data h w` is the value stored at row `h`,
column `w` for `h < H`, `w < W`. -/
structure PDMap where
  H : ℕ
  W : ℕ
  data : ℕ → ℕ → ℚ

/-- `feature_maps_input[0].shape[2]` — the reference height, taken from
layer 0 of the first sequence (source line 98). -/
def refHeight : List FeatureMap → ℕ
  | [] => 0
  | fm :: _ => fm.H

/-- `feature_maps_input[0].shape[3]` — the reference width, taken from
layer 0 of the first sequence (source line 98). -/
def refWidth : List FeatureMap → ℕ
  | [] => 0
  | fm :: _ => fm.W

/-- The aggregation loop, source lines 97-115: for every output pixel the
accumulator starts at 0 and, for every layer pair produced by
`zip(feature_maps_input, feature_maps_synthesized)`, adds
`layerTerm`; `zip` truncates to the shorter of the two lists, exactly as
Python's `zip` does. -/
def perceptual_difference_per_pixel (A B : List FeatureMap) : PDMap :=
  ⟨refHeight A, refWidth A, fun h w =>
    ((A.zip B).map (layerTerm (refHeight A) (refWidth A) h w)).sum⟩

/-- Two layers produced by the same extractor stage have identical channel
counts and identical spatial shapes (spec §3: `L` and `C_l` are fixed by
the architecture, and `H_l`/`W_l` are fixed per stage for the fixed
224×224 input). -/
def layerCompatible (a b : FeatureMap) : Prop :=
  a.C = b.C ∧ a.H = b.H ∧ a.W = b.W

instance (a b : FeatureMap) : Decidable (layerCompatible a b) :=
  inferInstanceAs (Decidable (_ ∧ _ ∧ _))

/-- The layer/channel invariant of spec §3 for a pair of extractions: the
sequences are nonempty, have equal length, and corresponding layers are
pairwise compatible. -/
def validPair (A B : List FeatureMap) : Prop :=
  0 < A.length ∧ A.length = B.length ∧
    ∀ i, i < A.length → layerCompatible (A.getD i default) (B.getD i default)

instance (A B : List FeatureMap) : Decidable (validPair A B) :=
  inferInstanceAs (Decidable (_ ∧ _ ∧ _))

/-- The whole-layer resize of `fm` to an `outH × outW` grid: the layer
whose every pixel is the bilinearly resampled value.  This is what
`F.interpolate(fm, size=(outH, outW), mode='bilinear',
align_corners=False)` computes once for the whole layer. -/
def resizeLayer (outH outW : ℕ) (fm : FeatureMap) : FeatureMap :=
  ⟨fm.C, outH, outW, fun c h w => bilinearAt fm outH outW c h w⟩

/-- The hoisted aggregation described by spec §9: this definition follows
the spec's words, not the source.  Each layer of each sequence is resized
once to the reference resolution (`L` total resizes per sequence), and the
per-pixel loop then only indexes into the resized layers. -/
def perceptual_difference_hoisted (A B : List FeatureMap) : PDMap :=
  ⟨refHeight A, refWidth A, fun h w =>
    (((A.map (resizeLayer (refHeight A) (refWidth A))).zip
        (B.map (resizeLayer (refHeight A) (refWidth A)))).map
      (fun p =>
        (∑ c ∈ Finset.range p.1.C, |p.1.data c h w - p.2.data c h w|) /
          (p.1.C : ℚ))).sum⟩

/-!
Preprocessing, source lines 34-40:
`transforms.Resize((224, 224))` (bilinear resampling of the PIL image to
exactly 224×224, aspect ratio not preserved), then `transforms.ToTensor()`
(byte intensities scaled into `[0,1]` by division by 255), then
`transforms.Normalize` with the ImageNet statistics, then `unsqueeze(0)`.
A decoded image is a `FeatureMap` with `C = 3` whose values are byte
intensities in `[0, 255]`.  The embedding keeps the resized intensities as
exact rationals (PIL additionally quantizes them back to bytes, which
neither changes the shape nor leaves `[0, 255]`).
-/

/-- ImageNet per-channel mean `[0.485, 0.456, 0.406]` (source line 37). -/
def imagenetMean : ℕ → ℚ
  | 0 => 485 / 1000
  | 1 => 456 / 1000
  | 2 => 406 / 1000
  | _ => 0

/-- ImageNet per-channel standard deviation `[0.229, 0.224, 0.225]`
(source line 37). -/
def imagenetStd : ℕ → ℚ
  | 0 => 229 / 1000
  | 1 => 224 / 1000
  | 2 => 225 / 1000
  | _ => 1

/-- `transforms.Resize((224, 224))`: resample to exactly 224×224,
regardless of the input shape. -/
def resize224 (img : FeatureMap) : FeatureMap :=
  resizeLayer 224 224 img

/-- `transforms.ToTensor()`: scale byte intensities into `[0, 1]` by
dividing by 255. -/
def toTensor (img : FeatureMap) : FeatureMap :=
  ⟨img.C, img.H, img.W, fun c h w => img.data c h w / 255⟩

/-- `transforms.Normalize(mean, std)`: per channel `(x - mean_c)/std_c`. -/
def normalizeChannels (t : FeatureMap) : FeatureMap :=
  ⟨t.C, t.H, t.W, fun c h w => (t.data c h w - imagenetMean c) / imagenetStd c⟩

/-- The composed `transform` of source lines 34-38. -/
def transform (img : FeatureMap) : FeatureMap :=
  normalizeChannels (toTensor (resize224 img))

/-- A batched tensor: `N` is the size of the leading batch dimension. -/
structure BatchedTensor where
  N : ℕ
  fm : FeatureMap

/-- `transform(image).unsqueeze(0)` (source lines 39-40): the preprocessed
tensor with an added leading batch dimension of size 1. -/
def preprocessImage (img : FeatureMap) : BatchedTensor :=
  ⟨1, transform img⟩

/-- One full run of the numeric pipeline for one frame pair: preprocess
both images, extract feature maps with the frozen extractor `extract`
(resnet18 in `eval()` mode, a pure function of its fixed weights and its
input — source lines 48-53), and aggregate.  The extractor is abstract
here; the theorem about this definition quantifies over it. -/
def runPipeline (extract : BatchedTensor → List FeatureMap)
    (imgIn imgSyn : FeatureMap) : PDMap :=
  perceptual_difference_per_pixel (extract (preprocessImage imgIn))
    (extract (preprocessImage imgSyn))

/-!
Output I/O skeleton, source lines 15-16 and 151.  The file system is the
set of existing directories together with the written files; `plt.savefig`
writes its file when the destination directory exists and fails with an
output I/O error when it does not.  The `os.makedirs(save_dir,
exist_ok=True)` call of line 16 is commented out in the source, so no
definition below ever adds `save_dir` to the directory set.
-/

/-- The output directory constant of source line 15. -/
def save_dir : String := "/disk/vanishing_data/du541/anomaly_scores/perceptual_difference"

/-- The mutable file-system state visible to the script: existing
directories and written files. -/
structure FS where
  dirs : List String
  files : List String

/-- `plt.savefig(os.path.join(dir, fname))`: succeeds and records the file
when `dir` exists, fails with an output I/O error otherwise. -/
def savefig (fs : FS) (dir fname : String) : Except String FS :=
  if dir ∈ fs.dirs then
    Except.ok ⟨fs.dirs, (dir ++ "/" ++ fname) :: fs.files⟩
  else
    Except.error "output I/O error"

/-- The save step of one frame iteration (source line 151): the script
calls `plt.savefig` on `save_dir` directly, with no directory creation
beforehand. -/
def frameSave (fs : FS) (n : ℕ) : Except String FS :=
  savefig fs save_dir ("perceptual_difference_" ++ toString n ++ ".png")

/-- The frame loop of source line 19 restricted to its file-system
effects: each iteration attempts its save; an uncaught failure aborts the
whole run, as an uncaught Python exception does. -/
def runFrames (fs : FS) : List ℕ → Except String FS
  | [] => Except.ok fs
  | n :: rest =>
    match frameSave fs n with
    | Except.ok fs' => runFrames fs' rest
    | Except.error e => Except.error e

/-!
Concrete inputs used to instantiate the theorems: a two-layer feature
pyramid for each of the two images (layer 0 finer than layer 1, matching
channel counts per layer), one mismatched single-layer sequence, a
constant 3-channel image, and a stub extractor.
-/

/-- Layer 0 of the concrete input pyramid: 2 channels on a 2×3 grid. -/
def exA1 : FeatureMap := ⟨2, 2, 3, fun c h w => (c : ℚ) + h + 2 * w⟩

/-- Layer 1 of the concrete input pyramid: 3 channels on a 1×2 grid. -/
def exA2 : FeatureMap := ⟨3, 1, 2, fun c h w => (c : ℚ) * h - w⟩

/-- Layer 0 of the concrete synthesized pyramid, shape-compatible with
`exA1`. -/
def exB1 : FeatureMap := ⟨2, 2, 3, fun c h w => (c : ℚ) - h + w⟩

/-- Layer 1 of the concrete synthesized pyramid, shape-compatible with
`exA2`. -/
def exB2 : FeatureMap := ⟨3, 1, 2, fun _ _ _ => 7⟩

/-- A concrete constant 3-channel 5×4 image with byte intensity 100. -/
def exImg : FeatureMap := ⟨3, 5, 4, fun _ _ _ => 100⟩

/-- A concrete stub extractor returning a fixed two-layer pyramid. -/
def exExtract : BatchedTensor → List FeatureMap := fun _ => [exA1, exA2]

/-!
Helper lemmas.
-/

/-- Summing a function mapped over a zip of equal-length lists equals the
index-wise sum over the common length. -/
theorem sum_map_zip (f : FeatureMap × FeatureMap → ℚ) :
    ∀ A B : List FeatureMap, A.length = B.length →
      ((A.zip B).map f).sum
        = ∑ i ∈ Finset.range A.length, f (A.getD i default, B.getD i default) := by
  intro A
  induction A with
  | nil => intro B h; simp
  | cons a A ih =>
    intro B h
    cases B with
    | nil => simp at h
    | cons b B =>
      have hlen : A.length = B.length := by simpa using h
      simp only [List.zip_cons_cons, List.map_cons, List.sum_cons, List.length_cons]
      rw [Finset.sum_range_succ', ih B hlen]
      simp [add_comm]

/-- On a nonempty sequence the reference height is the height of layer 0. -/
theorem refHeight_eq_getD (A : List FeatureMap) (h : 0 < A.length) :
    refHeight A = (A.getD 0 default).H := by
  cases A with
  | nil => simp at h
  | cons a A => rfl

/-- On a nonempty sequence the reference width is the width of layer 0. -/
theorem refWidth_eq_getD (A : List FeatureMap) (h : 0 < A.length) :
    refWidth A = (A.getD 0 default).W := by
  cases A with
  | nil => simp at h
  | cons a A => rfl

/-- Every element of `l.zip l` is a pair of equal components. -/
theorem mem_zip_self {p : FeatureMap × FeatureMap} :
    ∀ {A : List FeatureMap}, p ∈ A.zip A → p.1 = p.2 := by
  intro A
  induction A with
  | nil => intro hp; simp at hp
  | cons a A ih =>
    intro hp
    rw [List.zip_cons_cons, List.mem_cons] at hp
    rcases hp with rfl | hp
    · rfl
    · exact ih hp

/-- C1: for every pair of equal-length feature-map sequences satisfying
the layer/channel invariant, the aggregator's output at every pixel
`(h, w)` equals the sum over all layers `l` of the sum over the `C_l`
channels of the absolute difference between the bilinearly resampled
`A[l]` and `B[l]` at `(h, w)`, divided by `C_l`, starting from an
accumulator of 0. -/
theorem C1_per_pixel_aggregation_formula (A B : List FeatureMap)
    (hv : validPair A B) (h w : ℕ) :
    (perceptual_difference_per_pixel A B).data h w
      = ∑ l ∈ Finset.range A.length,
          (∑ c ∈ Finset.range (A.getD l default).C,
              |bilinearAt (A.getD l default) (refHeight A) (refWidth A) c h w
                - bilinearAt (B.getD l default) (refHeight A) (refWidth A) c h w|) /
            ((A.getD l default).C : ℚ) := by
  simpa [perceptual_difference_per_pixel, layerTerm] using
    sum_map_zip (layerTerm (refHeight A) (refWidth A) h w) A B hv.2.1

/-- Witness for C1 at the concrete two-layer pyramids and pixel (1, 2). -/
theorem C1_per_pixel_aggregation_formula_witness :
    validPair [exA1, exA2] [exB1, exB2] ∧
    (perceptual_difference_per_pixel [exA1, exA2] [exB1, exB2]).data 1 2
      = ∑ l ∈ Finset.range ([exA1, exA2] : List FeatureMap).length,
          (∑ c ∈ Finset.range (([exA1, exA2] : List FeatureMap).getD l default).C,
              |bilinearAt (([exA1, exA2] : List FeatureMap).getD l default)
                  (refHeight [exA1, exA2]) (refWidth [exA1, exA2]) c 1 2
                - bilinearAt (([exB1, exB2] : List FeatureMap).getD l default)
                  (refHeight [exA1, exA2]) (refWidth [exA1, exA2]) c 1 2|) /
            ((([exA1, exA2] : List FeatureMap).getD l default).C : ℚ) :=
  ⟨by decide, C1_per_pixel_aggregation_formula [exA1, exA2] [exB1, exB2] (by decide) 1 2⟩

/-- C3: for every pair of valid input feature-map sequences the resulting
map has the spatial shape of feature layer 0 of the first (reference)
sequence; no other quantity (in particular not the original image
resolution, which the aggregator never sees) enters the output shape. -/
theorem C3_output_shape_layer0 (A B : List FeatureMap) (hv : validPair A B) :
    (perceptual_difference_per_pixel A B).H = (A.getD 0 default).H ∧
    (perceptual_difference_per_pixel A B).W = (A.getD 0 default).W :=
  ⟨refHeight_eq_getD A hv.1, refWidth_eq_getD A hv.1⟩

/-- Witness for C3 at the concrete two-layer pyramids. -/
theorem C3_output_shape_layer0_witness :
    validPair [exA1, exA2] [exB1, exB2] ∧
    ((perceptual_difference_per_pixel [exA1, exA2] [exB1, exB2]).H
        = (([exA1, exA2] : List FeatureMap).getD 0 default).H ∧
      (perceptual_difference_per_pixel [exA1, exA2] [exB1, exB2]).W
        = (([exA1, exA2] : List FeatureMap).getD 0 default).W) :=
  ⟨by decide, C3_output_shape_layer0 [exA1, exA2] [exB1, exB2] (by decide)⟩

/-- C5: when the two feature-map sequences are identical, the perceptual
difference map is exactly zero at every pixel (the embedding computes in
exact rational arithmetic, so "within floating-point epsilon" sharpens to
exact equality). -/
theorem C5_identical_inputs_zero_map (A : List FeatureMap) (h w : ℕ) :
    (perceptual_difference_per_pixel A A).data h w = 0 := by
  simp only [perceptual_difference_per_pixel]
  refine List.sum_eq_zero ?_
  intro x hx
  simp only [List.mem_map] at hx
  obtain ⟨p, hp, rfl⟩ := hx
  have hpp : p.1 = p.2 := mem_zip_self hp
  simp [layerTerm, hpp]

/-- C2: the claim says mismatched sequence lengths must abort with a
Shape/Invariant error and never silently truncate; the code's
`zip(feature_maps_input, feature_maps_synthesized)` (source line 107)
instead silently drops the trailing layers of the longer sequence.  At the
concrete failing input — a two-layer input pyramid against a one-layer
synthesized pyramid, which violates the length invariant — the code
returns exactly the map of the truncated one-layer pair instead of
failing. -/
theorem C2_mismatched_lengths_silently_truncated :
    ¬ validPair [exA1, exA2] [exB1] ∧
    perceptual_difference_per_pixel [exA1, exA2] [exB1]
      = perceptual_difference_per_pixel [exA1] [exB1] :=
  ⟨by decide, rfl⟩

/-- C6: the perceptual difference map is non-negative at every pixel: it
is a sum over layers of sums of absolute values divided by non-negative
channel counts. -/
theorem C6_map_nonneg (A B : List FeatureMap) (_hv : validPair A B) (h w : ℕ) :
    0 ≤ (perceptual_difference_per_pixel A B).data h w := by
  refine List.sum_nonneg ?_
  intro x hx
  simp only [List.mem_map] at hx
  obtain ⟨p, hp, rfl⟩ := hx
  exact div_nonneg (Finset.sum_nonneg fun c hc => abs_nonneg _) (Nat.cast_nonneg _)

/-- Witness for C6 at the concrete two-layer pyramids and pixel (0, 1). -/
theorem C6_map_nonneg_witness :
    validPair [exA1, exA2] [exB1, exB2] ∧
    0 ≤ (perceptual_difference_per_pixel [exA1, exA2] [exB1, exB2]).data 0 1 :=
  ⟨by decide, C6_map_nonneg [exA1, exA2] [exB1, exB2] (by decide) 0 1⟩

/-- C4: swapping the two sequences yields the identical map: the output
shape is unchanged because the layer-0 spatial shapes agree under the
invariant, and each per-layer term is symmetric because compared layers
have equal channel counts and `|x - y| = |y - x|`. -/
theorem C4_swap_symmetric (A B : List FeatureMap) (hv : validPair A B) :
    perceptual_difference_per_pixel A B = perceptual_difference_per_pixel B A := by
  obtain ⟨hpos, hlen, hcomp⟩ := hv
  have hpos' : 0 < B.length := hlen ▸ hpos
  have h0 := hcomp 0 hpos
  have hH : refHeight A = refHeight B := by
    rw [refHeight_eq_getD A hpos, refHeight_eq_getD B hpos', h0.2.1]
  have hW : refWidth A = refWidth B := by
    rw [refWidth_eq_getD A hpos, refWidth_eq_getD B hpos', h0.2.2]
  simp only [perceptual_difference_per_pixel, hH, hW]
  congr 1
  funext h w
  rw [sum_map_zip _ A B hlen, sum_map_zip _ B A hlen.symm, ← hlen]
  refine Finset.sum_congr rfl ?_
  intro i hi
  have hci := hcomp i (Finset.mem_range.mp hi)
  simp only [layerTerm, hci.1]
  refine congrArg (fun s => s / ((B.getD i default).C : ℚ)) ?_
  refine Finset.sum_congr rfl ?_
  intro c hc
  rw [abs_sub_comm]

/-- Witness for C4 at the concrete two-layer pyramids. -/
theorem C4_swap_symmetric_witness :
    validPair [exA1, exA2] [exB1, exB2] ∧
    perceptual_difference_per_pixel [exA1, exA2] [exB1, exB2]
      = perceptual_difference_per_pixel [exB1, exB2] [exA1, exA2] :=
  ⟨by decide, C4_swap_symmetric [exA1, exA2] [exB1, exB2] (by decide)⟩

/-- C7: hoisting the per-layer resize out of the per-pixel loop — resizing
every layer once to the reference resolution and only indexing into the
resized layers inside the loop — produces a map identical to the
reference aggregation that resizes inside the loop.  The equality is
unconditional: it holds for all inputs, valid or not. -/
theorem C7_hoisted_resize_equivalent (A B : List FeatureMap) :
    perceptual_difference_hoisted A B = perceptual_difference_per_pixel A B := by
  simp only [perceptual_difference_hoisted, perceptual_difference_per_pixel]
  congr 1
  funext h w
  rw [List.zip_map, List.map_map]
  rfl

/-- The source coordinate of the bilinear kernel is never negative. -/
theorem srcIndex_nonneg (inSize outSize i : ℕ) : 0 ≤ srcIndex inSize outSize i :=
  le_max_left 0 _

/-- For a non-negative rational `s`, the interpolation weight
`s - ⌊s⌋.toNat` lies in `[0, 1]`. -/
theorem fract_sub_bounds (s : ℚ) (hs : 0 ≤ s) :
    0 ≤ s - ((⌊s⌋).toNat : ℚ) ∧ s - ((⌊s⌋).toNat : ℚ) ≤ 1 := by
  have h1 : (((⌊s⌋).toNat : ℤ) : ℚ) = ((⌊s⌋ : ℤ) : ℚ) := by
    exact_mod_cast congrArg (fun z : ℤ => (z : ℚ)) (Int.toNat_of_nonneg (Int.floor_nonneg.mpr hs))
  have h2 : ((⌊s⌋).toNat : ℚ) = ((⌊s⌋ : ℤ) : ℚ) := by push_cast at h1 ⊢; exact h1
  rw [h2]
  constructor
  · linarith [Int.floor_le s]
  · linarith [Int.lt_floor_add_one s]

/-- A convex combination with weight in `[0, 1]` of two values in
`[lo, hi]` stays in `[lo, hi]`. -/
theorem lerp_mem (lo hi t a b : ℚ) (ht0 : 0 ≤ t) (ht1 : t ≤ 1)
    (ha0 : lo ≤ a) (ha1 : a ≤ hi) (hb0 : lo ≤ b) (hb1 : b ≤ hi) :
    lo ≤ lerp t a b ∧ lerp t a b ≤ hi := by
  unfold lerp
  constructor <;> nlinarith

/-- Bilinear resampling of a layer whose values lie in `[lo, hi]` yields
values in `[lo, hi]`. -/
theorem bilinearAt_mem (lo hi : ℚ) (fm : FeatureMap)
    (hval : ∀ c y x, lo ≤ fm.data c y x ∧ fm.data c y x ≤ hi)
    (outH outW c h w : ℕ) :
    lo ≤ bilinearAt fm outH outW c h w ∧ bilinearAt fm outH outW c h w ≤ hi := by
  have hly := fract_sub_bounds (srcIndex fm.H outH h) (srcIndex_nonneg _ _ _)
  have hlx := fract_sub_bounds (srcIndex fm.W outW w) (srcIndex_nonneg _ _ _)
  simp only [bilinearAt]
  refine lerp_mem lo hi _ _ _ hly.1 hly.2 ?_ ?_ ?_ ?_
  · exact (lerp_mem lo hi _ _ _ hlx.1 hlx.2
      (hval _ _ _).1 (hval _ _ _).2 (hval _ _ _).1 (hval _ _ _).2).1
  · exact (lerp_mem lo hi _ _ _ hlx.1 hlx.2
      (hval _ _ _).1 (hval _ _ _).2 (hval _ _ _).1 (hval _ _ _).2).2
  · exact (lerp_mem lo hi _ _ _ hlx.1 hlx.2
      (hval _ _ _).1 (hval _ _ _).2 (hval _ _ _).1 (hval _ _ _).2).1
  · exact (lerp_mem lo hi _ _ _ hlx.1 hlx.2
      (hval _ _ _).1 (hval _ _ _).2 (hval _ _ _).1 (hval _ _ _).2).2

/-- C8: for every decoded image with byte intensities in `[0, 255]`, the
preprocessor outputs a tensor with a leading batch dimension of size 1
and spatial shape exactly 224×224 whatever the input shape (so the aspect
ratio is not preserved), whose pre-normalization intensities are scaled
into `[0, 1]`, and whose final values are the per-channel normalization
`(x - mean_c) / std_c` with the fixed ImageNet statistics. -/
theorem C8_preprocess_contract (img : FeatureMap)
    (hbytes : ∀ c h w, 0 ≤ img.data c h w ∧ img.data c h w ≤ 255) :
    (preprocessImage img).N = 1 ∧
    (preprocessImage img).fm.H = 224 ∧
    (preprocessImage img).fm.W = 224 ∧
    (preprocessImage img).fm.C = img.C ∧
    ∀ c h w,
      0 ≤ (toTensor (resize224 img)).data c h w ∧
      (toTensor (resize224 img)).data c h w ≤ 1 ∧
      (preprocessImage img).fm.data c h w
        = ((toTensor (resize224 img)).data c h w - imagenetMean c) / imagenetStd c := by
  refine ⟨rfl, rfl, rfl, rfl, fun c h w => ?_⟩
  have hb := bilinearAt_mem 0 255 img hbytes 224 224 c h w
  refine ⟨?_, ?_, rfl⟩
  · show 0 ≤ bilinearAt img 224 224 c h w / 255
    exact div_nonneg hb.1 (by norm_num)
  · show bilinearAt img 224 224 c h w / 255 ≤ 1
    rw [div_le_one (by norm_num)]
    exact hb.2.trans (by norm_num)

/-- Witness for C8 at the concrete constant image. -/
theorem C8_preprocess_contract_witness :
    (∀ c h w, 0 ≤ exImg.data c h w ∧ exImg.data c h w ≤ 255) ∧
    ((preprocessImage exImg).N = 1 ∧
      (preprocessImage exImg).fm.H = 224 ∧
      (preprocessImage exImg).fm.W = 224 ∧
      (preprocessImage exImg).fm.C = exImg.C ∧
      ∀ c h w,
        0 ≤ (toTensor (resize224 exImg)).data c h w ∧
        (toTensor (resize224 exImg)).data c h w ≤ 1 ∧
        (preprocessImage exImg).fm.data c h w
          = ((toTensor (resize224 exImg)).data c h w - imagenetMean c) / imagenetStd c) :=
  ⟨fun _ _ _ => show (0 : ℚ) ≤ 100 ∧ (100 : ℚ) ≤ 255 by decide,
    C8_preprocess_contract exImg
      (fun _ _ _ => show (0 : ℚ) ≤ 100 ∧ (100 : ℚ) ≤ 255 by decide)⟩

/-- C9: the numeric pipeline is deterministic: with the extractor a fixed
(frozen-weight, inference-mode) function and the input pixels fixed, any
two runs produce identical perceptual difference maps.  The embedding is
a pure function of the extractor and the two images — there is no hidden
state, gradient tracking or parameter update to diverge on. -/
theorem C9_pipeline_deterministic (extract : BatchedTensor → List FeatureMap)
    (imgIn imgSyn : FeatureMap) (m1 m2 : PDMap)
    (hrun1 : m1 = runPipeline extract imgIn imgSyn)
    (hrun2 : m2 = runPipeline extract imgIn imgSyn) :
    m1 = m2 :=
  hrun1.trans hrun2.symm

/-- Witness for C9: two runs at the concrete stub extractor and image. -/
theorem C9_pipeline_deterministic_witness :
    runPipeline exExtract exImg exImg = runPipeline exExtract exImg exImg :=
  C9_pipeline_deterministic exExtract exImg exImg _ _ rfl rfl

/-- C10: the script never creates the output directory (every successful
save leaves the directory set unchanged, and nothing else touches it), so
whenever the save directory does not exist beforehand, the very first
save of a frame — and hence the frame loop itself — fails with the
output I/O error. -/
theorem C10_missing_save_dir_errors (fs : FS) (hmiss : save_dir ∉ fs.dirs)
    (n : ℕ) (rest : List ℕ) :
    (∀ gs : FS, ∀ m : ℕ, ∀ gs' : FS,
        frameSave gs m = Except.ok gs' → gs'.dirs = gs.dirs) ∧
    frameSave fs n = Except.error "output I/O error" ∧
    runFrames fs (n :: rest) = Except.error "output I/O error" := by
  have hkeep : ∀ gs : FS, ∀ m : ℕ, ∀ gs' : FS,
      frameSave gs m = Except.ok gs' → gs'.dirs = gs.dirs := by
    intro gs m gs' hok
    unfold frameSave savefig at hok
    by_cases hmem : save_dir ∈ gs.dirs
    · simp only [hmem, if_true] at hok
      cases hok
      rfl
    · simp [hmem] at hok
  have hfail : frameSave fs n = Except.error "output I/O error" := by
    unfold frameSave savefig
    simp [hmiss]
  exact ⟨hkeep, hfail, by simp [runFrames, hfail]⟩

/-- Witness for C10: an empty file system, frame 1. -/
theorem C10_missing_save_dir_errors_witness :
    save_dir ∉ (FS.mk [] []).dirs ∧
    ((∀ gs : FS, ∀ m : ℕ, ∀ gs' : FS,
        frameSave gs m = Except.ok gs' → gs'.dirs = gs.dirs) ∧
      frameSave (FS.mk [] []) 1 = Except.error "output I/O error" ∧
      runFrames (FS.mk [] []) (1 :: []) = Except.error "output I/O error") :=
  ⟨by decide, C10_missing_save_dir_errors (FS.mk [] []) (by decide) 1 []⟩

end PD
